import Mathlib

set_option maxRecDepth 40000

/-
Verification development for the QA session orchestrator of the brad-os
developer tooling repository (tools/dev-cli, modules qa_start and qa_stop).

Strings of the Rust code are modelled as `List Char`; byte strings as
`List Nat` (each element a byte value below 256, the UTF-8 encoding of the
corresponding Rust `&str`).  The filesystem directory that holds the
simulator lock directories is modelled as an association list from
directory name to the content of the directory's `session` file
(`none` when the `session` file is missing or unreadable).  Machine
integers are modelled as `Nat` with an explicit reduction modulo 2^16 or
2^32 where the code casts or could wrap.
-/

/-! ## Rust standard-library primitives used by the code -/

/-- Membership of a code point in the Unicode White_Space set, the predicate
behind the Rust method char::is_whitespace used by str::trim and
str::split_whitespace. -/
def isRustWhitespace (c : Char) : Bool :=
  let n := c.toNat
  (9 ≤ n && n ≤ 13) || n = 32 || n = 133 || n = 160 || n = 5760 ||
    (8192 ≤ n && n ≤ 8202) || n = 8232 || n = 8233 || n = 8239 || n = 8287 || n = 12288

/-- Model of Rust str::trim: remove leading and trailing whitespace. -/
def rustTrim (s : List Char) : List Char :=
  ((s.dropWhile isRustWhitespace).reverse.dropWhile isRustWhitespace).reverse

/-- Model of Rust char::to_ascii_lowercase (also the per-character action of
str::to_ascii_lowercase): map an ASCII uppercase letter to the corresponding
lowercase letter and leave every other character unchanged. -/
def toAsciiLowerChar (c : Char) : Char :=
  if 65 ≤ c.toNat && c.toNat ≤ 90 then Char.ofNat (c.toNat + 32) else c

/-- Character class accepted unchanged by sanitize_id: ASCII lowercase letter,
ASCII digit, or the hyphen (code 45). -/
def isAllowedChar (c : Char) : Bool :=
  (97 ≤ c.toNat && c.toNat ≤ 122) || (48 ≤ c.toNat && c.toNat ≤ 57) || c.toNat = 45

/-- Split a character list at every occurrence of the separator.  Always
returns at least one (possibly empty) part; used to model str::lines and
Unix path component splitting. -/
def splitOnChar (sep : Char) : List Char → List (List Char)
  | [] => [[]]
  | c :: rest =>
    if c = sep then [] :: splitOnChar sep rest
    else
      match splitOnChar sep rest with
      | [] => [[c]]
      | l :: ls => (c :: l) :: ls

/-- Remove one trailing carriage return, as Rust str::lines does on each
produced line. -/
def stripTrailingCR (l : List Char) : List Char :=
  if l.getLast? = some '\r' then l.dropLast else l

/-- Model of Rust str::lines: split at every newline, drop the trailing empty
piece produced by a terminating newline, and strip one trailing carriage
return from each line. -/
def rustLines (s : List Char) : List (List Char) :=
  let parts := splitOnChar '\n' s
  let parts := if parts.getLast? = some [] then parts.dropLast else parts
  parts.map stripTrailingCR

/-- Model of Rust str::split_once: split at the first occurrence of the
separator, returning the parts before and after it. -/
def splitOnceChar (sep : Char) : List Char → Option (List Char × List Char)
  | [] => none
  | c :: rest =>
    if c = sep then some ([], rest)
    else (splitOnceChar sep rest).map (fun p => (c :: p.1, p.2))

/-- Decimal digit character for a digit value below ten (other inputs give a
placeholder; they never occur). -/
def digitChar10 : Nat → Char
  | 0 => '0'
  | 1 => '1'
  | 2 => '2'
  | 3 => '3'
  | 4 => '4'
  | 5 => '5'
  | 6 => '6'
  | 7 => '7'
  | 8 => '8'
  | 9 => '9'
  | _ => '*'

/-- Recursive worker for decimal rendering; the fuel argument (any bound
strictly above n) makes the recursion structural. -/
def natToCharsAux : Nat → Nat → List Char
  | 0, _ => []
  | fuel + 1, n =>
    if n < 10 then [digitChar10 n]
    else natToCharsAux fuel (n / 10) ++ [digitChar10 (n % 10)]

/-- Decimal rendering of a natural number, the Display implementation of the
Rust unsigned integer types (u16, u32, u64 all render this way). -/
def natToChars (n : Nat) : List Char := natToCharsAux (n + 1) n

/-- Numeric value of a digit character. -/
def digitVal (c : Char) : Nat := c.toNat - 48

/-- Bool test for an ASCII digit character. -/
def isAsciiDigitChar (c : Char) : Bool := 48 ≤ c.toNat && c.toNat ≤ 57

/-- Model of Rust str::parse for an unsigned integer type whose values are
the naturals below `limit`: an optional leading plus sign, then at least one
ASCII digit, rejecting any other character and any value at or above the
limit (overflow). -/
def parse_uint (limit : Nat) (t : List Char) : Option Nat :=
  let digits := if t.head? = some '+' then t.drop 1 else t
  if digits.isEmpty then none
  else if digits.all isAsciiDigitChar then
    let n := digits.foldl (fun a c => a * 10 + digitVal c) 0
    if n < limit then some n else none
  else none

/-- Model of str::parse::<u16>. -/
def parse_u16 (t : List Char) : Option Nat := parse_uint 65536 t

/-- Model of str::parse::<u64>. -/
def parse_u64 (t : List Char) : Option Nat := parse_uint (2 ^ 64) t

/-- UTF-8 encoding of a single character, the bytes str::as_bytes exposes
for it. -/
def utf8Char (c : Char) : List Nat :=
  let n := c.toNat
  if n < 128 then [n]
  else if n < 2048 then [192 + n / 64, 128 + n % 64]
  else if n < 65536 then [224 + n / 4096, 128 + n / 64 % 64, 128 + n % 64]
  else [240 + n / 262144, 128 + n / 4096 % 64, 128 + n / 64 % 64, 128 + n % 64]

/-- UTF-8 encoding of a string: the byte list Rust str::as_bytes returns. -/
def utf8Bytes (s : List Char) : List Nat := (s.map utf8Char).flatten

/-- One shift-and-conditionally-xor step of the reflected CRC-32 computation
with the IEEE polynomial (reversed representation 0xEDB88320). -/
def crc32Round (c : Nat) : Nat :=
  if c % 2 = 1 then (c / 2) ^^^ 0xEDB88320 else c / 2

/-- Fold one input byte into the CRC-32 state: xor into the low byte, then
eight polynomial-division rounds. -/
def crc32Byte (crc b : Nat) : Nat :=
  let x := crc ^^^ (b % 256)
  crc32Round (crc32Round (crc32Round (crc32Round
    (crc32Round (crc32Round (crc32Round (crc32Round x)))))))

/-- CRC-32 (IEEE / ISO-HDLC variant: initial value 0xFFFFFFFF, reflected
input and output, final complement) of a byte list.  This is the checksum
the crc32fast crate computes, which the code uses through
crc32fast::Hasher::update / finalize. -/
def crc32 (bytes : List Nat) : Nat :=
  0xFFFFFFFF ^^^ bytes.foldl crc32Byte 0xFFFFFFFF

/-- Model of Rust str::contains for a string pattern: some suffix of the
haystack starts with the needle. -/
def strContains (haystack needle : List Char) : Bool :=
  (List.range (haystack.length + 1)).any (fun i => needle.isPrefixOf (haystack.drop i))

/-- Model of Rust std::path::Path::file_name for Unix paths: the last
normal component of the path, ignoring empty components and single-dot
components; none when the path has no components or ends in a parent-dir
component. -/
def file_name (path : List Char) : Option (List Char) :=
  let comps := (splitOnChar '/' path).filter
    (fun c => !c.isEmpty && !(c = ['.'] : Bool))
  match comps.getLast? with
  | none => none
  | some c => if c = ['.', '.'] then none else some c

/-! ## Port derivation and session-id sanitization
Source: tools/dev-cli/src/qa_start/ports.rs -/

/-- Model of qa_start::ports::sanitize_id: ASCII-lowercase the input, then
replace every character other than an ASCII lowercase letter, an ASCII
digit, or a hyphen with a hyphen. -/
def qa_start.sanitize_id (raw : List Char) : List Char :=
  (raw.map toAsciiLowerChar).map (fun c => if isAllowedChar c then c else '-')

/-- Model of qa_start::ports::checksum_seed: the CRC-32 of the seed bytes
(the Ok result; the function never fails). -/
def qa_start.checksum_seed (seed : List Nat) : Nat := crc32 seed

/-- Model of qa_start::ports::pick_ports_from_hash: reduce the checksum
modulo 200 to a slot, map the slot to 15000 + slot * 20, and cast the u32
result to u16 (the cast is the explicit reduction modulo 2^16). -/
def qa_start.pick_ports_from_hash (seed : List Nat) : Nat :=
  (15000 + qa_start.checksum_seed seed % 200 * 20) % 65536

/-- Model of qa_start::ports::Ports: the seven derived service ports. -/
structure Ports where
  functions : Nat
  hosting : Nat
  firestore : Nat
  ui : Nat
  otel : Nat
  hub : Nat
  logging : Nat
deriving DecidableEq

/-- Model of qa_start::ports::Ports::derive: base port from
pick_ports_from_hash, six following ports at consecutive u16 offsets (u16
addition modelled with its modulus; the Ok result, as the function never
fails). -/
def Ports.derive (seed : List Nat) : Ports :=
  let base := qa_start.pick_ports_from_hash seed
  { functions := base
    hosting := (base + 1) % 65536
    firestore := (base + 2) % 65536
    ui := (base + 3) % 65536
    otel := (base + 4) % 65536
    hub := (base + 5) % 65536
    logging := (base + 6) % 65536 }

/-- Model of qa_start::ports::default_session_id: sanitized final path
component (falling back to the literal "worktree"), a hyphen, and the CRC-32
of the whole path string reduced modulo 10000. -/
def qa_start.default_session_id (root_dir : List Char) : List Char :=
  let worktree := (file_name root_dir).getD ("worktree".data)
  qa_start.sanitize_id worktree ++ '-' :: natToChars (qa_start.checksum_seed (utf8Bytes root_dir) % 10000)

/-! ## qa_stop session-id derivation
Source: tools/dev-cli/src/qa_stop/state.rs -/

/-- Model of qa_stop::state::sanitize_id (the qa_stop copy of the
sanitizer): ASCII-lowercase, then replace disallowed characters with a
hyphen. -/
def qa_stop.sanitize_id (raw : List Char) : List Char :=
  (raw.map toAsciiLowerChar).map (fun ch => if isAllowedChar ch then ch else '-')

/-- Model of qa_stop::state::checksum_of_path.  The code spawns the external
command `cksum <path>` and parses the first whitespace-separated token of
its standard output as a u64; the external command is outside the
repository, so the model takes that standard output as a parameter.  (The
real cksum prints the POSIX CRC of the contents of the file at the path and
prints nothing to stdout when the path is a directory, which it always is
for the workspace roots this is called with.) -/
def qa_stop.checksum_of_path (cksumStdout : List Char) : Option Nat :=
  let tok := (cksumStdout.dropWhile isRustWhitespace).takeWhile (fun c => !isRustWhitespace c)
  if tok.isEmpty then none else parse_u64 tok

/-- Model of qa_stop::state::default_session_id: sanitized final path
component (falling back to the empty string), a hyphen, and the parsed
cksum output reduced modulo 10000; none models the Err results (no cksum
output or unparseable output). -/
def qa_stop.default_session_id (worktree_root : List Char) (cksumStdout : List Char) :
    Option (List Char) :=
  let worktree := (file_name worktree_root).getD []
  let sanitized := qa_stop.sanitize_id worktree
  (qa_stop.checksum_of_path cksumStdout).map
    (fun checksum => sanitized ++ '-' :: natToChars (checksum % 10000))

/-- Definition written from the words of the claim for comparison with the
code: map each character of the input to itself when it is an ASCII
lowercase letter, an ASCII digit, or a hyphen, and to a hyphen otherwise
(no lowercasing step). -/
def sanitize_id_claimed (raw : List Char) : List Char :=
  raw.map (fun c => if isAllowedChar c then c else '-')

/-! ## Device-lock filesystem model
The shared lock root `<QA_STATE_ROOT>/device-locks` is modelled as an
association list from lock-directory name to the content of the
directory's `session` file; `none` content models a lock directory whose
`session` file is missing or unreadable.  Atomic directory creation is the
insertion of an absent key; removing the `session` file and then the
(then-empty) directory is the removal of the entry. -/

/-- Filesystem model of a directory of lock directories. -/
abbrev LocksFS := List (List Char × Option (List Char))

/-- Directory-entry lookup by name (a real directory has at most one entry
per name; lookup returns the first). -/
def lookupFS : LocksFS → List Char → Option (Option (List Char))
  | [], _ => none
  | e :: rest, k => if e.1 = k then some e.2 else lookupFS rest k

/-- Remove the directory of the given name (with its session file), the
effect of remove_file on the session file followed by remove_dir. -/
def eraseFS (fs : LocksFS) (k : List Char) : LocksFS :=
  fs.filter (fun e => !decide (e.1 = k))

/-- Name of the lock directory for a UDID, `<udid>.lock`. -/
def lockDirName (udid : List Char) : List Char := udid ++ (".lock".data)

/-! ## Device lease manager
Source: tools/dev-cli/src/qa_start/simulator.rs -/

/-- Model of qa_start::simulator::SimulatorCandidate. -/
structure SimulatorCandidate where
  name : List Char
  udid : List Char
deriving DecidableEq

/-- Model of qa_start::simulator::claim_or_reuse_lock.  Attempt
fs::create_dir on `<udid>.lock`: when the directory is absent, create it,
write the session id followed by a newline into its `session` file, and
return the lock path; when it already exists, read the `session` file
(an unreadable or missing file reads as the empty string), reuse the lock
when the trimmed content equals the requesting session, and return None
otherwise.  The returned option models Ok(Some path) / Ok(None); the Err
cases of the Rust function are filesystem faults outside this model. -/
def qa_start.claim_or_reuse_lock (fs : LocksFS) (udid sanitized_session : List Char) :
    LocksFS × Option (List Char) :=
  let lock_dir := lockDirName udid
  match lookupFS fs lock_dir with
  | none => ((lock_dir, some (sanitized_session ++ ['\n'])) :: fs, some lock_dir)
  | some session_file =>
    if rustTrim (session_file.getD []) = sanitized_session then (fs, some lock_dir)
    else (fs, none)

/-- Model of qa_start::simulator::unlock_lock: when the lock directory
exists, remove its session file and the directory (removal of an absent
directory is a no-op, matching the guarded fs calls). -/
def qa_start.unlock_lock (fs : LocksFS) (lock_dir : List Char) : LocksFS :=
  eraseFS fs lock_dir

/-- Model of qa_start::simulator::name_for_udid restricted to an already
parsed candidate list. -/
def qa_start.name_for_udid (candidates : List SimulatorCandidate) (udid : List Char) :
    Option (List Char) :=
  (candidates.find? (fun c => decide (c.udid = udid))).map (fun c => c.name)

/-- Claim attempt loop of qa_start::simulator::choose_simulator: try
claim_or_reuse_lock on each candidate in order, returning the first
successful claim together with the filesystem after it. -/
def qa_start.try_claim_each (session : List Char) :
    LocksFS → List SimulatorCandidate → LocksFS × Option (SimulatorCandidate × List Char)
  | fs, [] => (fs, none)
  | fs, c :: rest =>
    match qa_start.claim_or_reuse_lock fs c.udid session with
    | (fs1, some lock) => (fs1, some (c, lock))
    | (fs1, none) => qa_start.try_claim_each session fs1 rest

/-- Model of qa_start::simulator::choose_simulator over an already parsed
candidate list (the xcrun listing text and its regex parse are abstracted
to their result): filter by the device request (exact UDID or name
substring), partition iPhones first, and claim the first available
candidate.  None models both Err cases (no matching simulator, or no
unlocked simulator). -/
def qa_start.choose_simulator (device_request : Option (List Char))
    (candidates : List SimulatorCandidate) (fs : LocksFS) (session : List Char) :
    LocksFS × Option (List Char × List Char × List Char) :=
  let candidates := match device_request with
    | some request =>
      candidates.filter
        (fun (c : SimulatorCandidate) => decide (c.udid = request) || strContains c.name request)
    | none => candidates
  if candidates.isEmpty then (fs, none)
  else
    let parts := candidates.partition
      (fun (entry : SimulatorCandidate) => ("iPhone".data).isPrefixOf entry.name)
    match qa_start.try_claim_each session fs (parts.1 ++ parts.2) with
    | (fs1, some (c, lock)) => (fs1, some (c.name, c.udid, lock))
    | (fs1, none) => (fs1, none)

/-! ## qa-start orchestration tail: lease, guard, state persistence
Source: tools/dev-cli/src/qa_start.rs (run, lease_and_boot, SimLockGuard) -/

/-- Model of the Drop implementation of qa_start::SimLockGuard: when the
release flag is set and a path is recorded, remove the lock directory's
session file and the directory. -/
def qa_start.guard_drop (fs : LocksFS) (path : Option (List Char)) (release : Bool) : LocksFS :=
  if release then
    match path with
    | some p => eraseFS fs p
    | none => fs
  else fs

/-- Model of qa_start::lease_and_boot.  The simulator listing is abstracted
to its parsed candidates and the fallible simctl environment-injection
calls to the flag inject_ok (their stdio behaviour is irrelevant to the
lock state).  Reuse path: when the prior state names a UDID and lock whose
session file content (trimmed) equals the session, the lock path exists,
and the device is still listed, return them without taking a lease.
Otherwise choose and claim a simulator; none models the Err returns.  The
Bool in the result is acquired_lock: true exactly when a fresh lease was
taken by choose_simulator. -/
def qa_start.lease_and_boot (fs : LocksFS) (device_request : Option (List Char))
    (candidates : List SimulatorCandidate)
    (existing_udid existing_lock : Option (List Char))
    (session : List Char) (inject_ok : Bool) :
    LocksFS × Option (Option (List Char) × Option (List Char) × Option (List Char) × Bool) :=
  let fresh := fun (fs : LocksFS) =>
    match qa_start.choose_simulator device_request candidates fs session with
    | (fs1, some (name, udid, lock)) =>
      if inject_ok then (fs1, some (some udid, some name, some lock, true))
      else (fs1, none)
    | (fs1, none) => (fs1, none)
  match existing_udid, existing_lock with
  | some u, some l =>
    let lock_owner := rustTrim (((lookupFS fs l).bind id).getD [])
    if lock_owner = session ∧ (lookupFS fs l).isSome ∧
        (qa_start.name_for_udid candidates u).isSome then
      (fs, some (some u, qa_start.name_for_udid candidates u, some l, false))
    else fresh fs
  | _, _ => fresh fs

/-- Model of the tail of qa_start::run from the simulator step to the
return, projected to the lock filesystem: the SimLockGuard starts as
(None, false); after the simulator step it is armed with the lease path and
the acquired_lock flag; writing state.env either succeeds (write_ok) or
fails; and in every exit path the guard is dropped.  The Bool result is
whether run returns Ok.  Steps before the simulator step (directory
creation, firebase, otel) do not touch the lock filesystem and are outside
this projection. -/
def qa_start.run_tail (fs : LocksFS) (setup_simulator : Bool)
    (device_request : Option (List Char)) (candidates : List SimulatorCandidate)
    (existing_udid existing_lock : Option (List Char))
    (session : List Char) (inject_ok write_ok : Bool) : LocksFS × Bool :=
  if setup_simulator then
    match qa_start.lease_and_boot fs device_request candidates existing_udid existing_lock
        session inject_ok with
    | (fs1, none) => (qa_start.guard_drop fs1 none false, false)
    | (fs1, some (_, _, lock, acquired)) =>
      (qa_start.guard_drop fs1 lock acquired, write_ok)
  else
    (qa_start.guard_drop fs existing_lock false, write_ok)

/-! ## qa-stop lock release
Source: tools/dev-cli/src/qa_stop/locks.rs and qa_stop/mod.rs -/

/-- Model of qa_stop::locks::release_lock_dir: when the recorded path is a
directory, remove its session file and the directory and report true;
otherwise report false.  The owner_session parameter is accepted and, as in
the code, not read. -/
def qa_stop.release_lock_dir (fs : LocksFS) (lock_dir : List Char)
    (_owner_session : List Char) : LocksFS × Bool :=
  if (lookupFS fs lock_dir).isSome then (eraseFS fs lock_dir, true) else (fs, false)

/-- Extension test of qa_stop::locks::release_matching_locks: the entry name
has Path extension "lock" (it ends in ".lock" and is not the bare name
".lock", whose leading dot marks a hidden file without extension). -/
def hasLockExtension (name : List Char) : Bool :=
  ((".lock".data).isSuffixOf name) && decide (5 < name.length)

/-- Removal test of qa_stop::locks::release_matching_locks for one entry:
lock extension, session file present and readable, and its trimmed content
equal to the owner session. -/
def qa_stop.lockMatches (owner_session : List Char) (e : List Char × Option (List Char)) : Bool :=
  hasLockExtension e.1 &&
    match e.2 with
    | some content => decide (rustTrim content = owner_session)
    | none => false

/-- Model of qa_stop::locks::release_matching_locks: scan the lock root and
remove every lock directory whose session file content matches the owner,
returning the names of the released directories. -/
def qa_stop.release_matching_locks (fs : LocksFS) (owner_session : List Char) :
    LocksFS × List (List Char) :=
  (fs.filter (fun e => !qa_stop.lockMatches owner_session e),
   (fs.filter (qa_stop.lockMatches owner_session)).map (fun e => e.1))

/-- Model of the lock-release phase of qa_stop::run_internal (the two steps
after simulator cleanup): release the lock directory recorded in the
session state when the state names one, then scan the shared lock root and
release every lock owned by the session.  The recorded directory is
modelled as an entry of the same filesystem, which is where the state
points in every run of the tool. -/
def qa_stop.release_phase (fs : LocksFS) (recorded : Option (List Char))
    (session_id : List Char) : LocksFS :=
  let fs1 := match recorded with
    | some lock_dir => (qa_stop.release_lock_dir fs lock_dir session_id).1
    | none => fs
  (qa_stop.release_matching_locks fs1 session_id).1

/-! ## Session state file
Source: tools/dev-cli/src/qa_start/state.rs -/

/-- Model of qa_start::state::QaState. -/
structure QaState where
  qa_state_root : Option (List Char)
  worktree_root : Option (List Char)
  session_id : Option (List Char)
  project_id : Option (List Char)
  functions_port : Option Nat
  hosting_port : Option Nat
  firestore_port : Option Nat
  ui_port : Option Nat
  otel_port : Option Nat
  hub_port : Option Nat
  logging_port : Option Nat
  simulator_udid : Option (List Char)
  simulator_name : Option (List Char)
  simulator_lock_dir : Option (List Char)
  firebase_config : Option (List Char)
  firebase_log : Option (List Char)
  otel_log : Option (List Char)
  firebase_pid_file : Option (List Char)
  otel_pid_file : Option (List Char)
deriving DecidableEq

/-- The Default value of QaState: every field absent. -/
def qaStateDefault : QaState :=
  ⟨none, none, none, none, none, none, none, none, none, none,
   none, none, none, none, none, none, none, none, none⟩

/-- Model of qa_start::state::kv: render one `KEY="value"` line. -/
def kvLine (key value : List Char) : List Char :=
  key ++ '=' :: '"' :: (value ++ ['"'])

/-- The nineteen lines of qa_start::state::render_state in order: every key
present, an absent field rendered as the empty string, ports rendered in
decimal. -/
def render_lines (s : QaState) : List (List Char) :=
  [kvLine ("QA_STATE_ROOT".data) (s.qa_state_root.getD []),
   kvLine ("WORKTREE_ROOT".data) (s.worktree_root.getD []),
   kvLine ("SESSION_ID".data) (s.session_id.getD []),
   kvLine ("PROJECT_ID".data) (s.project_id.getD []),
   kvLine ("FUNCTIONS_PORT".data) ((s.functions_port.map natToChars).getD []),
   kvLine ("HOSTING_PORT".data) ((s.hosting_port.map natToChars).getD []),
   kvLine ("FIRESTORE_PORT".data) ((s.firestore_port.map natToChars).getD []),
   kvLine ("UI_PORT".data) ((s.ui_port.map natToChars).getD []),
   kvLine ("OTEL_PORT".data) ((s.otel_port.map natToChars).getD []),
   kvLine ("HUB_PORT".data) ((s.hub_port.map natToChars).getD []),
   kvLine ("LOGGING_PORT".data) ((s.logging_port.map natToChars).getD []),
   kvLine ("SIMULATOR_UDID".data) (s.simulator_udid.getD []),
   kvLine ("SIMULATOR_NAME".data) (s.simulator_name.getD []),
   kvLine ("SIMULATOR_LOCK_DIR".data) (s.simulator_lock_dir.getD []),
   kvLine ("FIREBASE_CONFIG".data) (s.firebase_config.getD []),
   kvLine ("FIREBASE_LOG".data) (s.firebase_log.getD []),
   kvLine ("OTEL_LOG".data) (s.otel_log.getD []),
   kvLine ("FIREBASE_PID_FILE".data) (s.firebase_pid_file.getD []),
   kvLine ("OTEL_PID_FILE".data) (s.otel_pid_file.getD [])]

/-- Join lines with a newline after each one.  This equals the source
expression lines.join with a newline separator followed by one appended
newline, since every line is then followed by exactly one newline. -/
def joinLines : List (List Char) → List Char
  | [] => []
  | l :: ls => l ++ '\n' :: joinLines ls

/-- Model of qa_start::state::render_state, the exact content
write_to_file writes. -/
def render_state (s : QaState) : List Char := joinLines (render_lines s)

/-- Model of qa_start::state::trim_quotes: strip one pair of surrounding
double quotes when the value starts and ends with one and has length at
least two. -/
def trim_quotes (value : List Char) : List Char :=
  if value.head? = some '"' && value.getLast? = some '"' && decide (2 ≤ value.length) then
    (value.drop 1).dropLast
  else value

/-- Key-value extraction of qa_start::state::QaState::from_file: split each
line at the first equals sign and strip quotes from the value; lines
without an equals sign are dropped. -/
def parsePairs (raw : List Char) : List (List Char × List Char) :=
  (rustLines raw).filterMap
    (fun line => (splitOnceChar '=' line).map (fun p => (p.1, trim_quotes p.2)))

/-- HashMap collection semantics of from_file: of entries sharing a key,
the last inserted wins. -/
def lookupLast (pairs : List (List Char × List Char)) (key : List Char) : Option (List Char) :=
  pairs.foldl (fun acc e => if e.1 = key then some e.2 else acc) none

/-- Model of qa_start::state::QaState::from_file on the contents of the
file (the read itself is outside the model): collect `KEY=value` pairs,
take string fields verbatim, parse port fields as u16, and keep the three
simulator fields only when non-empty. -/
def QaState.from_file (raw : List Char) : QaState :=
  let pairs := parsePairs raw
  let get := fun (k : String) => lookupLast pairs k.data
  let nonempty := fun (o : Option (List Char)) => o.bind (fun v => if v.isEmpty then none else some v)
  { qa_state_root := get ("QA_STATE_ROOT")
    worktree_root := get ("WORKTREE_ROOT")
    session_id := get ("SESSION_ID")
    project_id := get ("PROJECT_ID")
    functions_port := (get ("FUNCTIONS_PORT")).bind parse_u16
    hosting_port := (get ("HOSTING_PORT")).bind parse_u16
    firestore_port := (get ("FIRESTORE_PORT")).bind parse_u16
    ui_port := (get ("UI_PORT")).bind parse_u16
    otel_port := (get ("OTEL_PORT")).bind parse_u16
    hub_port := (get ("HUB_PORT")).bind parse_u16
    logging_port := (get ("LOGGING_PORT")).bind parse_u16
    simulator_udid := nonempty (get ("SIMULATOR_UDID"))
    simulator_name := nonempty (get ("SIMULATOR_NAME"))
    simulator_lock_dir := nonempty (get ("SIMULATOR_LOCK_DIR"))
    firebase_config := get ("FIREBASE_CONFIG")
    firebase_log := get ("FIREBASE_LOG")
    otel_log := get ("OTEL_LOG")
    firebase_pid_file := get ("FIREBASE_PID_FILE")
    otel_pid_file := get ("OTEL_PID_FILE") }

/-- Normalization a write/reload round trip applies to a QaState: an absent
plain string field comes back as the present empty string (rendered as an
empty value, reparsed verbatim), and a present-but-empty simulator field
comes back absent (filtered on load); ports are unchanged. -/
def QaState.normalize (s : QaState) : QaState :=
  let plain := fun (o : Option (List Char)) => some (o.getD [])
  let sim := fun (o : Option (List Char)) => o.bind (fun v => if v.isEmpty then none else some v)
  { qa_state_root := plain s.qa_state_root
    worktree_root := plain s.worktree_root
    session_id := plain s.session_id
    project_id := plain s.project_id
    functions_port := s.functions_port
    hosting_port := s.hosting_port
    firestore_port := s.firestore_port
    ui_port := s.ui_port
    otel_port := s.otel_port
    hub_port := s.hub_port
    logging_port := s.logging_port
    simulator_udid := sim s.simulator_udid
    simulator_name := sim s.simulator_name
    simulator_lock_dir := sim s.simulator_lock_dir
    firebase_config := plain s.firebase_config
    firebase_log := plain s.firebase_log
    otel_log := plain s.otel_log
    firebase_pid_file := plain s.firebase_pid_file
    otel_pid_file := plain s.otel_pid_file }

/-- Condition for the round-trip theorem: no stored string value contains a
newline (a newline inside a value breaks the line structure of the file). -/
def QaState.noNewlines (s : QaState) : Bool :=
  (s.qa_state_root.all (fun v => !v.contains '\n')) &&
  (s.worktree_root.all (fun v => !v.contains '\n')) &&
  (s.session_id.all (fun v => !v.contains '\n')) &&
  (s.project_id.all (fun v => !v.contains '\n')) &&
  (s.simulator_udid.all (fun v => !v.contains '\n')) &&
  (s.simulator_name.all (fun v => !v.contains '\n')) &&
  (s.simulator_lock_dir.all (fun v => !v.contains '\n')) &&
  (s.firebase_config.all (fun v => !v.contains '\n')) &&
  (s.firebase_log.all (fun v => !v.contains '\n')) &&
  (s.otel_log.all (fun v => !v.contains '\n')) &&
  (s.firebase_pid_file.all (fun v => !v.contains '\n')) &&
  (s.otel_pid_file.all (fun v => !v.contains '\n'))

/-- Condition for the round-trip theorem: every present port value fits in a
u16, which the Rust field types guarantee. -/
def QaState.portsBounded (s : QaState) : Bool :=
  (s.functions_port.all (fun p => decide (p < 65536))) &&
  (s.hosting_port.all (fun p => decide (p < 65536))) &&
  (s.firestore_port.all (fun p => decide (p < 65536))) &&
  (s.ui_port.all (fun p => decide (p < 65536))) &&
  (s.otel_port.all (fun p => decide (p < 65536))) &&
  (s.hub_port.all (fun p => decide (p < 65536))) &&
  (s.logging_port.all (fun p => decide (p < 65536)))

/-- The nineteen key-value pairs that parsing a rendered state file yields,
in file order (used to state the round-trip argument). -/
def state_pairs (s : QaState) : List (List Char × List Char) :=
  [(("QA_STATE_ROOT".data), s.qa_state_root.getD []),
   (("WORKTREE_ROOT".data), s.worktree_root.getD []),
   (("SESSION_ID".data), s.session_id.getD []),
   (("PROJECT_ID".data), s.project_id.getD []),
   (("FUNCTIONS_PORT".data), (s.functions_port.map natToChars).getD []),
   (("HOSTING_PORT".data), (s.hosting_port.map natToChars).getD []),
   (("FIRESTORE_PORT".data), (s.firestore_port.map natToChars).getD []),
   (("UI_PORT".data), (s.ui_port.map natToChars).getD []),
   (("OTEL_PORT".data), (s.otel_port.map natToChars).getD []),
   (("HUB_PORT".data), (s.hub_port.map natToChars).getD []),
   (("LOGGING_PORT".data), (s.logging_port.map natToChars).getD []),
   (("SIMULATOR_UDID".data), s.simulator_udid.getD []),
   (("SIMULATOR_NAME".data), s.simulator_name.getD []),
   (("SIMULATOR_LOCK_DIR".data), s.simulator_lock_dir.getD []),
   (("FIREBASE_CONFIG".data), s.firebase_config.getD []),
   (("FIREBASE_LOG".data), s.firebase_log.getD []),
   (("OTEL_LOG".data), s.otel_log.getD []),
   (("FIREBASE_PID_FILE".data), s.firebase_pid_file.getD []),
   (("OTEL_PID_FILE".data), s.otel_pid_file.getD [])]

/-! ## Firebase config generator
Source: tools/dev-cli/src/qa_start/firebase.rs -/

/-- Model of a serde_json::Value. -/
inductive Json where
  | null : Json
  | bool : Bool → Json
  | num : Int → Json
  | str : String → Json
  | arr : List Json → Json
  | obj : List (String × Json) → Json

/-- Insert or replace a key in a JSON object field list (serde_json map
insert). -/
def jsonInsert (fields : List (String × Json)) (key : String) (v : Json) :
    List (String × Json) :=
  if fields.any (fun e => e.1 = key) then
    fields.map (fun e => if e.1 = key then (key, v) else e)
  else fields ++ [(key, v)]

/-- Lookup of a key in a JSON object field list. -/
def jsonGet (fields : List (String × Json)) (key : String) : Option Json :=
  (fields.find? (fun e => decide (e.1 = key))).map (fun e => e.2)

/-- Model of qa_start::firebase::FirebaseConfig (the two path fields that
only flow into the output unchanged are kept as strings). -/
structure FirebaseConfig where
  data_dir : String
  functions_port : Nat
  hosting_port : Nat
  firestore_port : Nat
  ui_port : Nat
  hub_port : Nat
  logging_port : Nat
deriving DecidableEq

/-- Bool test for a JSON object value. -/
def Json.isObjB (j : Json) : Bool :=
  match j with
  | Json.obj _ => true
  | _ => false

/-- Condition under which the emulators section handling of
write_firebase_config succeeds: the field is absent (it is then inserted as
an empty object) or present as an object. -/
def emulatorsFieldOk (root : List (String × Json)) : Bool :=
  match jsonGet root ("emulators") with
  | none => true
  | some v => v.isObjB

/-- Model of qa_start::firebase::write_firebase_config after the template
file has been read and run through serde_json::from_str; the parameter is
that parse result (none for contents that are not valid JSON).  A failed
parse is replaced by an empty JSON object; a parsed non-object template and
a non-object emulators field are errors; otherwise the emulators section is
rewritten with the session ports and data directory, the functions source
and hosting public paths are pointed at the worktree-root link, and the Ok
value is the document written to the output file. -/
def write_firebase_config (templateParse : Option Json) (config : FirebaseConfig) :
    Except String Json :=
  let json := templateParse.getD (Json.obj [])
  match json with
  | Json.obj root =>
    match (jsonGet root ("emulators")).getD (Json.obj []) with
    | Json.obj emulators =>
      let emulators := jsonInsert emulators ("functions")
        (Json.obj [(("port"), Json.num config.functions_port)])
      let emulators := jsonInsert emulators ("firestore")
        (Json.obj [(("port"), Json.num config.firestore_port)])
      let emulators := jsonInsert emulators ("hosting")
        (Json.obj [(("enabled"), Json.bool true), (("port"), Json.num config.hosting_port)])
      let emulators := jsonInsert emulators ("hub")
        (Json.obj [(("port"), Json.num config.hub_port)])
      let emulators := jsonInsert emulators ("logging")
        (Json.obj [(("port"), Json.num config.logging_port)])
      let emulators := jsonInsert emulators ("ui")
        (Json.obj [(("enabled"), Json.bool true), (("port"), Json.num config.ui_port)])
      let emulators := jsonInsert emulators ("import") (Json.str config.data_dir)
      let emulators := jsonInsert emulators ("export_on_exit") (Json.str config.data_dir)
      let emulators := jsonInsert emulators ("singleProjectMode") (Json.bool true)
      let root := jsonInsert root ("emulators") (Json.obj emulators)
      let root := if (jsonGet root ("functions")).isSome then root
        else jsonInsert root ("functions")
          (Json.obj [(("source"), Json.str ("packages/functions"))])
      let root := match jsonGet root ("functions") with
        | some (Json.obj f) =>
          jsonInsert root ("functions")
            (Json.obj (jsonInsert f ("source") (Json.str ("worktree-root/packages/functions"))))
        | _ => root
      let root := if (jsonGet root ("hosting")).isSome then root
        else jsonInsert root ("hosting") (Json.obj [])
      let root := match jsonGet root ("hosting") with
        | some (Json.obj h) =>
          jsonInsert root ("hosting")
            (Json.obj (jsonInsert h ("public") (Json.str ("worktree-root/public"))))
        | _ => root
      Except.ok (Json.obj root)
    | _ => Except.error ("firebase.json emulators field must be an object")
  | _ => Except.error ("firebase.json must be an object")

/-! ## Supporting lemmas -/

/-- Validation of the CRC-32 model against the standard check value: the
checksum of the ASCII string "123456789" is 0xCBF43926. -/
theorem crc32_check_value :
    crc32 ([49, 50, 51, 52, 53, 54, 55, 56, 57]) = 0xCBF43926 := by decide

theorem char_toNat_ofNat_of_valid (n : Nat) (hv : n.isValidChar) :
    (Char.ofNat n).toNat = n := by
  rw [Char.ofNat, dif_pos hv]
  simp [Char.ofNatAux, Char.toNat, UInt32.toNat, BitVec.toNat_ofNatLt]

theorem sanitize_step_allowed (c : Char) :
    isAllowedChar (if isAllowedChar c then c else '-') = true := by
  by_cases h : isAllowedChar c = true
  · rw [if_pos h]; exact h
  · rw [if_neg h]; decide

theorem mem_sanitize_allowed (x : List Char) :
    ∀ c ∈ qa_start.sanitize_id x, isAllowedChar c = true := by
  intro c hc
  unfold qa_start.sanitize_id at hc
  rw [List.mem_map] at hc
  obtain ⟨b, _, rfl⟩ := hc
  exact sanitize_step_allowed b

theorem allowed_not_whitespace (c : Char) (h : isAllowedChar c = true) :
    isRustWhitespace c = false := by
  simp [isAllowedChar, isRustWhitespace] at *
  omega

theorem allowed_lower_fixed (c : Char) (h : isAllowedChar c = true) :
    toAsciiLowerChar c = c := by
  unfold toAsciiLowerChar
  rw [if_neg]
  simp [isAllowedChar] at h
  simp only [Bool.and_eq_true, decide_eq_true_eq, not_and]
  omega

theorem dropWhile_eq_self_of_all {p : Char → Bool} (l : List Char)
    (h : ∀ c ∈ l, p c = false) : l.dropWhile p = l := by
  cases l with
  | nil => rfl
  | cons a t =>
    rw [List.dropWhile_cons, if_neg (by simp [h a (List.mem_cons_self a t)])]

theorem rustTrim_nil : rustTrim [] = [] := rfl

theorem rustTrim_append_newline (s : List Char)
    (h : ∀ c ∈ s, isRustWhitespace c = false) : rustTrim (s ++ ['\n']) = s := by
  unfold rustTrim
  cases s with
  | nil => rfl
  | cons a t =>
    have ha := h a (List.mem_cons_self a t)
    rw [List.cons_append, List.dropWhile_cons, if_neg (by simp [ha])]
    rw [show (a :: (t ++ ['\n'])).reverse = '\n' :: (t.reverse ++ [a]) by simp]
    rw [List.dropWhile_cons, if_pos (by decide)]
    rw [dropWhile_eq_self_of_all (t.reverse ++ [a]) ?all]
    case all =>
      intro c hc
      rcases List.mem_append.mp hc with hm | hm
      · exact h c (List.mem_cons_of_mem a (List.mem_reverse.mp hm))
      · rw [List.mem_singleton.mp hm]; exact ha
    simp

theorem sanitized_not_whitespace (A : List Char) (hA : A = qa_start.sanitize_id A) :
    ∀ c ∈ A, isRustWhitespace c = false := by
  intro c hc
  rw [hA] at hc
  exact allowed_not_whitespace c (mem_sanitize_allowed A c hc)

theorem lookupFS_cons (e : List Char × Option (List Char)) (fs : LocksFS) (k : List Char) :
    lookupFS (e :: fs) k = if e.1 = k then some e.2 else lookupFS fs k := rfl

theorem eraseFS_lookup_none (fs : LocksFS) (k : List Char) :
    lookupFS (eraseFS fs k) k = none := by
  induction fs with
  | nil => rfl
  | cons e rest ih =>
    unfold eraseFS at *
    rw [List.filter_cons]
    by_cases h : e.1 = k
    · rw [if_neg (by simp [h])]
      exact ih
    · rw [if_pos (by simp [h]), lookupFS_cons, if_neg h]
      exact ih

theorem lookupFS_none_eraseFS (fs : LocksFS) (k : List Char)
    (h : lookupFS fs k = none) : eraseFS fs k = fs := by
  induction fs with
  | nil => rfl
  | cons e rest ih =>
    rw [lookupFS_cons] at h
    by_cases he : e.1 = k
    · rw [if_pos he] at h; exact absurd h (by simp)
    · rw [if_neg he] at h
      unfold eraseFS at *
      rw [List.filter_cons, if_pos (by simp [he]), ih h]

/-! ## Claim C7: port derivation -/

/-- Claim C7 (confirmed).  Port derivation is a pure function of the seed
byte string (determinism is definitional in the model: the same seed gives
the same derived record), the functions port is 15000 plus 20 times the
CRC-32 of the seed reduced modulo 200, and the other six ports follow at
offsets one through six in the order hosting, firestore, ui, otel
(telemetry), hub, logging. -/
theorem ports_derive_spec (seed : List Nat) :
    (Ports.derive seed).functions = 15000 + 20 * (crc32 seed % 200) ∧
    (Ports.derive seed).hosting = (Ports.derive seed).functions + 1 ∧
    (Ports.derive seed).firestore = (Ports.derive seed).functions + 2 ∧
    (Ports.derive seed).ui = (Ports.derive seed).functions + 3 ∧
    (Ports.derive seed).otel = (Ports.derive seed).functions + 4 ∧
    (Ports.derive seed).hub = (Ports.derive seed).functions + 5 ∧
    (Ports.derive seed).logging = (Ports.derive seed).functions + 6 := by
  have hx : crc32 seed % 200 < 200 := Nat.mod_lt _ (by norm_num)
  simp only [Ports.derive, qa_start.pick_ports_from_hash, qa_start.checksum_seed]
  generalize crc32 seed % 200 = m at hx ⊢
  have hb : (15000 + m * 20) % 65536 = 15000 + m * 20 := Nat.mod_eq_of_lt (by omega)
  simp only [hb]
  refine ⟨by omega, ?_, ?_, ?_, ?_, ?_, ?_⟩ <;> omega

/-! ## Claim C9: sanitize_id -/

/-- Counterexample to claim C9 as stated: the claimed per-character map
(identity on lowercase letters, digits, hyphens; hyphen otherwise) sends
the uppercase letter A to a hyphen, but sanitize_id first ASCII-lowercases
and so sends it to the lowercase a. -/
theorem sanitize_id_claim_cex :
    qa_start.sanitize_id ("A".data) = ("a".data) ∧
    sanitize_id_claimed ("A".data) = ("-".data) ∧
    ¬ qa_start.sanitize_id ("A".data) = sanitize_id_claimed ("A".data) := by decide

theorem sanitize_id_idempotent (x : List Char) :
    qa_start.sanitize_id (qa_start.sanitize_id x) = qa_start.sanitize_id x := by
  unfold qa_start.sanitize_id
  simp only [List.map_map]
  refine List.map_congr_left (fun a _ => ?_)
  simp only [Function.comp_apply]
  have hd := sanitize_step_allowed (toAsciiLowerChar a)
  rw [allowed_lower_fixed _ hd, if_pos hd]

/-- Claim C9 as amended: sanitize_id maps each character by first
ASCII-lowercasing it and then replacing it with a hyphen unless it is an
ASCII lowercase letter, an ASCII digit, or a hyphen; consequently the
output contains only characters in the class [a-z0-9-], sanitize_id is
idempotent, and the qa-start and qa-stop copies compute the same
function. -/
theorem sanitize_id_spec (x : List Char) :
    qa_start.sanitize_id x
      = x.map (fun c => if isAllowedChar (toAsciiLowerChar c) then toAsciiLowerChar c else '-') ∧
    (∀ c ∈ qa_start.sanitize_id x, isAllowedChar c = true) ∧
    qa_start.sanitize_id (qa_start.sanitize_id x) = qa_start.sanitize_id x ∧
    qa_stop.sanitize_id x = qa_start.sanitize_id x := by
  refine ⟨?_, mem_sanitize_allowed x, sanitize_id_idempotent x, rfl⟩
  unfold qa_start.sanitize_id
  rw [List.map_map]
  rfl

/-! ## Claim C10: corrupted lease blocks claiming without crashing -/

/-- Claim C10 (confirmed).  When the lock directory for the UDID exists but
its session file is missing or unreadable (read_to_string defaults the
content to the empty string), claim_or_reuse_lock returns Ok(None) for
every non-empty session: the filesystem is unchanged (the directory is
neither removed nor taken over) and no error is raised (the model of this
branch has no error outcome, as every fallible call in it is absorbed by
unwrap_or_default or the AlreadyExists match). -/
theorem claim_or_reuse_lock_missing_session_file (fs : LocksFS) (udid session : List Char)
    (hs : session ≠ [])
    (hlock : lookupFS fs (lockDirName udid) = some none) :
    qa_start.claim_or_reuse_lock fs udid session = (fs, none) := by
  simp only [qa_start.claim_or_reuse_lock, hlock, Option.getD_none, rustTrim_nil]
  rw [if_neg (fun h => hs h.symm)]

/-- Witness for claim C10 at a concrete corrupted lock. -/
theorem claim_or_reuse_lock_missing_session_file_witness :
    (("demo".data : List Char) ≠ []) ∧
    lookupFS [((lockDirName ("u1".data)), none)] (lockDirName ("u1".data)) = some none ∧
    qa_start.claim_or_reuse_lock [((lockDirName ("u1".data)), none)] ("u1".data) ("demo".data)
      = ([((lockDirName ("u1".data)), none)], none) :=
  ⟨by decide, by decide,
   claim_or_reuse_lock_missing_session_file [((lockDirName ("u1".data)), none)]
     ("u1".data) ("demo".data) (by decide) (by decide)⟩

/-! ## Claim C8: idempotent re-claim by the owning session -/

/-- Claim C8 (confirmed).  When the lock directory for the UDID already
exists and its session file content trims to the requesting non-empty
session id, claim_or_reuse_lock returns Ok(Some path-of-that-directory)
and leaves the filesystem unchanged: no second lock directory is created
and no error is raised. -/
theorem claim_or_reuse_lock_idempotent (fs : LocksFS) (udid session c : List Char)
    (_hs : session ≠ [])
    (hlock : lookupFS fs (lockDirName udid) = some (some c))
    (howner : rustTrim c = session) :
    qa_start.claim_or_reuse_lock fs udid session = (fs, some (lockDirName udid)) := by
  simp only [qa_start.claim_or_reuse_lock, hlock, Option.getD_some]
  rw [if_pos howner]

/-- Witness for claim C8 at a concrete owned lock. -/
theorem claim_or_reuse_lock_idempotent_witness :
    (("demo".data : List Char) ≠ []) ∧
    lookupFS [((lockDirName ("u1".data)), some ("demo\n".data))] (lockDirName ("u1".data))
      = some (some ("demo\n".data)) ∧
    rustTrim ("demo\n".data) = ("demo".data) ∧
    qa_start.claim_or_reuse_lock [((lockDirName ("u1".data)), some ("demo\n".data))]
        ("u1".data) ("demo".data)
      = ([((lockDirName ("u1".data)), some ("demo\n".data))], some (lockDirName ("u1".data))) :=
  ⟨by decide, by decide, by decide,
   claim_or_reuse_lock_idempotent [((lockDirName ("u1".data)), some ("demo\n".data))]
     ("u1".data) ("demo".data) ("demo\n".data) (by decide) (by decide) (by decide)⟩

/-! ## Claim C2: mutual exclusion and release of device leases -/

/-- Claim C2 (confirmed).  For distinct non-empty sanitized sessions A and B
and any UDID: after A claims the lease (with a Some result), a claim by B
returns Ok(None); and after unlock_lock removes the lock directory, a claim
by B returns Ok(Some lock-path). -/
theorem lease_mutual_exclusion (fs : LocksFS) (udid A B : List Char)
    (hA : A = qa_start.sanitize_id A) (_hAne : A ≠ []) (_hBne : B ≠ []) (hAB : A ≠ B)
    (hclaim : ((qa_start.claim_or_reuse_lock fs udid A).2).isSome = true) :
    (qa_start.claim_or_reuse_lock (qa_start.claim_or_reuse_lock fs udid A).1 udid B).2
      = none ∧
    (qa_start.claim_or_reuse_lock
        (qa_start.unlock_lock (qa_start.claim_or_reuse_lock fs udid A).1 (lockDirName udid))
        udid B).2
      = some (lockDirName udid) := by
  have htrimA : rustTrim (A ++ ['\n']) = A :=
    rustTrim_append_newline A (sanitized_not_whitespace A hA)
  have hsecond : (qa_start.claim_or_reuse_lock
      (qa_start.unlock_lock (qa_start.claim_or_reuse_lock fs udid A).1 (lockDirName udid))
      udid B).2 = some (lockDirName udid) := by
    generalize hg : qa_start.unlock_lock (qa_start.claim_or_reuse_lock fs udid A).1
      (lockDirName udid) = fs2
    have herase : lookupFS fs2 (lockDirName udid) = none := by
      rw [← hg]; exact eraseFS_lookup_none _ _
    simp only [qa_start.claim_or_reuse_lock, herase]
  refine ⟨?_, hsecond⟩
  cases hl : lookupFS fs (lockDirName udid) with
  | none =>
    have hfs1 : (qa_start.claim_or_reuse_lock fs udid A).1
        = ((lockDirName udid), some (A ++ ['\n'])) :: fs := by
      simp only [qa_start.claim_or_reuse_lock, hl]
    rw [hfs1]
    have hlook : lookupFS (((lockDirName udid), some (A ++ ['\n'])) :: fs) (lockDirName udid)
        = some (some (A ++ ['\n'])) := by
      rw [lookupFS_cons, if_pos rfl]
    simp only [qa_start.claim_or_reuse_lock, hlook, Option.getD_some, htrimA]
    rw [if_neg hAB]
  | some c =>
    have hcond : rustTrim (c.getD []) = A := by
      by_cases h : rustTrim (c.getD []) = A
      · exact h
      · exfalso
        simp only [qa_start.claim_or_reuse_lock, hl, if_neg h, Option.isSome_none] at hclaim
        exact Bool.false_ne_true hclaim
    have hfs1 : (qa_start.claim_or_reuse_lock fs udid A).1 = fs := by
      simp [qa_start.claim_or_reuse_lock, hl, hcond]
    rw [hfs1]
    simp only [qa_start.claim_or_reuse_lock, hl, hcond]
    rw [if_neg hAB]

/-- Witness for claim C2: session alpha claims a free device, session beta
cannot claim it, and can claim it after the unlock. -/
theorem lease_mutual_exclusion_witness :
    (("alpha".data : List Char) = qa_start.sanitize_id ("alpha".data) ∧
     ("alpha".data : List Char) ≠ [] ∧ ("beta".data : List Char) ≠ [] ∧
     ("alpha".data : List Char) ≠ ("beta".data) ∧
     ((qa_start.claim_or_reuse_lock [] ("u1".data) ("alpha".data)).2).isSome = true) ∧
    ((qa_start.claim_or_reuse_lock
        (qa_start.claim_or_reuse_lock [] ("u1".data) ("alpha".data)).1
        ("u1".data) ("beta".data)).2 = none ∧
     (qa_start.claim_or_reuse_lock
        (qa_start.unlock_lock (qa_start.claim_or_reuse_lock [] ("u1".data) ("alpha".data)).1
          (lockDirName ("u1".data)))
        ("u1".data) ("beta".data)).2 = some (lockDirName ("u1".data))) :=
  ⟨⟨by decide, by decide, by decide, by decide, by decide⟩,
   lease_mutual_exclusion [] ("u1".data) ("alpha".data) ("beta".data)
     (by decide) (by decide) (by decide) (by decide) (by decide)⟩

/-! ## Claim C1: qa-stop lock release -/

/-- Counterexample to claim C1 as stated: a lock directory recorded in the
session state whose session file names a different owner is nevertheless
removed by the release phase of qa-stop (release_lock_dir never reads the
owner).  Here session demo stops while the recorded directory u.lock is
owned by other; the claim requires the directory to stay, but it is
gone. -/
theorem release_phase_foreign_lock_cex :
    rustTrim ("other\n".data) ≠ ("demo".data) ∧
    lookupFS
      (qa_stop.release_phase
        [((("u".data) ++ (".lock".data)), some ("other\n".data)),
         ((("v".data) ++ (".lock".data)), some ("demo\n".data))]
        (some (("u".data) ++ (".lock".data))) ("demo".data))
      (("u".data) ++ (".lock".data)) = none := by decide

theorem release_lock_dir_eq_erase (fs : LocksFS) (r s : List Char) :
    (qa_stop.release_lock_dir fs r s).1 = eraseFS fs r := by
  unfold qa_stop.release_lock_dir
  by_cases h : (lookupFS fs r).isSome = true
  · rw [if_pos h]
  · rw [if_neg h]
    exact (lookupFS_none_eraseFS fs r (Option.not_isSome_iff_eq_none.mp h)).symm

/-- Claim C1 as amended.  The release phase of qa-stop for session S with a
recorded lock directory r keeps exactly those directory entries that are
not named r and are not a `.lock` directory whose session file content
(trimmed) equals S: the recorded directory is removed unconditionally,
whatever its session file says, while the shared-root scan removes exactly
the locks owned by S and leaves every other entry in place. -/
theorem release_phase_characterization (fs : LocksFS) (r S : List Char)
    (e : List Char × Option (List Char)) :
    e ∈ qa_stop.release_phase fs (some r) S ↔
      e ∈ fs ∧ e.1 ≠ r ∧ qa_stop.lockMatches S e = false := by
  unfold qa_stop.release_phase qa_stop.release_matching_locks
  simp only [release_lock_dir_eq_erase]
  unfold eraseFS
  rw [List.mem_filter, List.mem_filter]
  constructor
  · rintro ⟨⟨hmem, hr⟩, hmatch⟩
    refine ⟨hmem, ?_, ?_⟩
    · simpa using hr
    · simpa using hmatch
  · rintro ⟨hmem, hr, hmatch⟩
    exact ⟨⟨hmem, by simpa using hr⟩, by simpa using hmatch⟩

/-! ## Claim C3: the lease guard on the qa-start success path -/

/-- Claim C3 fails on the code (code bug).  In a run that freshly acquires
a lease (empty lock root, one listed iPhone, no prior state) and in which
every later step succeeds including writing state.env (write_ok), run
returns Ok but the final lock filesystem is empty: SimLockGuard.release is
set to acquired_lock and never cleared after the state file is persisted,
so the Drop implementation removes the fresh lock directory on the success
path as well.  The claim (and the spec) require the lock directory and its
session file to still exist after a successful run. -/
theorem run_tail_releases_fresh_lock_on_success :
    qa_start.run_tail [] true none [⟨("iPhone 15".data), ("UDID-1".data)⟩]
        none none ("demo".data) true true
      = ([], true) ∧
    lookupFS
      (qa_start.run_tail [] true none [⟨("iPhone 15".data), ("UDID-1".data)⟩]
          none none ("demo".data) true true).1
      (lockDirName ("UDID-1".data)) = none := by decide

/-! ## Claim C6: firebase template error handling -/

/-- Counterexample to claim C6 as stated: a template whose contents are not
parseable as JSON (the parse result is none) does not make the generator
fail; serde_json::from_str's error is absorbed by unwrap_or_else with an
empty object, and generation succeeds and writes output. -/
theorem firebase_unparseable_template_cex :
    (write_firebase_config none
      { data_dir := ("/tmp/data"), functions_port := 15000, hosting_port := 15001,
        firestore_port := 15002, ui_port := 15003, hub_port := 15005,
        logging_port := 15006 }).isOk = true := by decide

/-- Claim C6 as amended.  The generator fails exactly when the parsed
template is not a JSON object, or when its emulators field is present and
not an object; a template that fails to parse is replaced by an empty
object and generation succeeds (writing output).  On the error outcomes no
output document is produced. -/
theorem except_isOk_ok {e : Type} {a : Type} (x : a) : (Except.ok x : Except e a).isOk = true := rfl

theorem except_isOk_error {e : Type} {a : Type} (err : e) : (Except.error err : Except e a).isOk = false := rfl

theorem write_firebase_config_error_characterization (t : Option Json)
    (config : FirebaseConfig) :
    (write_firebase_config t config).isOk = true ↔
      ((match t.getD (Json.obj []) with
        | Json.obj root => emulatorsFieldOk root
        | _ => false) = true) := by
  cases t with
  | none => exact iff_of_true rfl rfl
  | some j =>
    cases j with
    | obj root =>
      cases hget : jsonGet root ("emulators") with
      | none =>
        simp only [write_firebase_config, Option.getD_some, Option.getD_none, hget,
          emulatorsFieldOk, except_isOk_ok]
      | some v =>
        cases v with
        | obj fields =>
          simp only [write_firebase_config, Option.getD_some, Option.getD_none, hget,
            emulatorsFieldOk, Json.isObjB, except_isOk_ok]
        | null =>
          simp only [write_firebase_config, Option.getD_some, Option.getD_none, hget,
            emulatorsFieldOk, Json.isObjB, except_isOk_error]
        | bool b =>
          simp only [write_firebase_config, Option.getD_some, Option.getD_none, hget,
            emulatorsFieldOk, Json.isObjB, except_isOk_error]
        | num n =>
          simp only [write_firebase_config, Option.getD_some, Option.getD_none, hget,
            emulatorsFieldOk, Json.isObjB, except_isOk_error]
        | str s =>
          simp only [write_firebase_config, Option.getD_some, Option.getD_none, hget,
            emulatorsFieldOk, Json.isObjB, except_isOk_error]
        | arr xs =>
          simp only [write_firebase_config, Option.getD_some, Option.getD_none, hget,
            emulatorsFieldOk, Json.isObjB, except_isOk_error]
    | null => exact iff_of_false (fun h => Bool.false_ne_true h) (fun h => Bool.false_ne_true h)
    | bool b => exact iff_of_false (fun h => Bool.false_ne_true h) (fun h => Bool.false_ne_true h)
    | num n => exact iff_of_false (fun h => Bool.false_ne_true h) (fun h => Bool.false_ne_true h)
    | str s => exact iff_of_false (fun h => Bool.false_ne_true h) (fun h => Bool.false_ne_true h)
    | arr xs => exact iff_of_false (fun h => Bool.false_ne_true h) (fun h => Bool.false_ne_true h)

/-! ## Claim C4: default session id derivation in qa-start and qa-stop -/

/-- Counterexample to claim C4 as stated: at the workspace root path "/"
(and cksum behaviour for a directory: no stdout, modelled as the empty
output), qa_stop's derivation fails where qa_start returns
"worktree-5204"; and even when the external cksum produces a parseable
token (here 4242), qa_stop returns "-4242", which differs from qa_start's
result because qa_stop falls back to the empty name and uses the external
checksum instead of the CRC-32 of the path string. -/
theorem default_session_id_divergence_cex :
    qa_stop.default_session_id ("/".data) ("".data) = none ∧
    qa_stop.default_session_id ("/".data) ("4242 0 /".data) = some ("-4242".data) ∧
    qa_start.default_session_id ("/".data) = ("worktree-5204".data) ∧
    ¬ some (qa_start.default_session_id ("/".data))
        = qa_stop.default_session_id ("/".data) ("4242 0 /".data) := by decide

/-- Claim C4 as amended.  The two derivations share only their shape: for a
path with a final component and a cksum invocation whose output parses to
n, qa-stop produces the sanitized component, a hyphen, and n modulo 10000,
while qa-start produces the same sanitized component (its sanitizer is the
same function), a hyphen, and the CRC-32 of the path string modulo 10000.
The checksums come from different sources (the external cksum of the file
at the path, against the CRC-32 of the path text), so the two ids need not
agree, and qa-stop errors whenever cksum yields no parseable output, as it
does for a directory. -/
theorem default_session_id_shape (root stdout name : List Char) (n : Nat)
    (hname : file_name root = some name)
    (hck : qa_stop.checksum_of_path stdout = some n) :
    qa_stop.default_session_id root stdout
      = some (qa_start.sanitize_id name ++ '-' :: natToChars (n % 10000)) ∧
    qa_start.default_session_id root
      = qa_start.sanitize_id name ++ '-'
          :: natToChars (qa_start.checksum_seed (utf8Bytes root) % 10000) := by
  constructor
  · simp only [qa_stop.default_session_id, hname, hck, Option.getD_some, Option.map_some']
    rfl
  · simp only [qa_start.default_session_id, hname, Option.getD_some]

/-- Witness for the amended claim C4 at the path "/a" with cksum output
"123". -/
theorem default_session_id_shape_witness :
    (file_name ("/a".data) = some ("a".data) ∧
     qa_stop.checksum_of_path ("123".data) = some 123) ∧
    (qa_stop.default_session_id ("/a".data) ("123".data)
       = some (qa_start.sanitize_id ("a".data) ++ '-' :: natToChars (123 % 10000)) ∧
     qa_start.default_session_id ("/a".data)
       = qa_start.sanitize_id ("a".data) ++ '-'
           :: natToChars (qa_start.checksum_seed (utf8Bytes ("/a".data)) % 10000)) :=
  ⟨⟨by decide, by decide⟩,
   default_session_id_shape ("/a".data) ("123".data) ("a".data) 123 (by decide) (by decide)⟩

/-! ## Claim C5: session-state round trip -/

theorem splitOnceChar_key (sep : Char) (k rest : List Char) (h : sep ∉ k) :
    splitOnceChar sep (k ++ sep :: rest) = some (k, rest) := by
  induction k with
  | nil => simp [splitOnceChar]
  | cons a t ih =>
    have ha : ¬(a = sep) := fun hh => h (hh ▸ List.mem_cons_self a t)
    rw [List.cons_append]
    simp only [splitOnceChar, if_neg ha,
      ih (fun hm => h (List.mem_cons_of_mem a hm)), Option.map_some']

theorem getLast?_cons_concat (a b : Char) (v : List Char) :
    (a :: (v ++ [b])).getLast? = some b := by
  have h : a :: (v ++ [b]) = (a :: v) ++ [b] := rfl
  rw [h, List.getLast?_concat]

theorem trim_quotes_wrap (v : List Char) : trim_quotes ('"' :: (v ++ ['"'])) = v := by
  unfold trim_quotes
  rw [if_pos]
  · show (('"' :: (v ++ ['"'])).drop 1).dropLast = v
    simp [List.dropLast_concat]
  · simp only [List.head?_cons, getLast?_cons_concat, List.length_cons, List.length_append,
      List.length_singleton, Bool.and_eq_true, decide_eq_true_eq]
    exact ⟨⟨trivial, trivial⟩, by omega⟩

theorem parsedLine_kv (k v : List Char) (hk : '=' ∉ k) :
    (splitOnceChar '=' (kvLine k v)).map (fun p => (p.1, trim_quotes p.2)) = some (k, v) := by
  unfold kvLine
  rw [splitOnceChar_key '=' k _ hk]
  simp [trim_quotes_wrap]

theorem parsePairs_step (k v : List Char) (rest : List (List Char)) (hk : '=' ∉ k) :
    (kvLine k v :: rest).filterMap
        (fun line => (splitOnceChar '=' line).map (fun p => (p.1, trim_quotes p.2)))
      = (k, v) :: rest.filterMap
        (fun line => (splitOnceChar '=' line).map (fun p => (p.1, trim_quotes p.2))) :=
  List.filterMap_cons_some (parsedLine_kv k v hk)

theorem splitOnChar_append_sep (sep : Char) (l rest : List Char) (h : sep ∉ l) :
    splitOnChar sep (l ++ sep :: rest) = l :: splitOnChar sep rest := by
  induction l with
  | nil => simp [splitOnChar]
  | cons a t ih =>
    have ha : ¬(a = sep) := fun hh => h (hh ▸ List.mem_cons_self a t)
    have ih2 := ih (fun hm => h (List.mem_cons_of_mem a hm))
    rw [List.cons_append]
    simp only [splitOnChar, if_neg ha, ih2]

theorem joinLines_cons (l : List Char) (ls : List (List Char)) :
    joinLines (l :: ls) = l ++ '\n' :: joinLines ls := rfl

theorem splitOnChar_joinLines (ls : List (List Char)) (h : ∀ l ∈ ls, '\n' ∉ l) :
    splitOnChar '\n' (joinLines ls) = ls ++ [[]] := by
  induction ls with
  | nil => rfl
  | cons l rest ih =>
    rw [joinLines_cons, splitOnChar_append_sep '\n' l _ (h l (List.mem_cons_self l rest)),
      ih (fun x hx => h x (List.mem_cons_of_mem l hx))]
    rfl

theorem stripTrailingCR_eq_self (l : List Char) (h : l.getLast? ≠ some '\r') :
    stripTrailingCR l = l := by
  unfold stripTrailingCR
  rw [if_neg h]

theorem rustLines_joinLines (ls : List (List Char))
    (hnl : ∀ l ∈ ls, '\n' ∉ l) (hcr : ∀ l ∈ ls, l.getLast? ≠ some '\r') :
    rustLines (joinLines ls) = ls := by
  simp only [rustLines]
  rw [splitOnChar_joinLines ls hnl, List.getLast?_concat, if_pos rfl, List.dropLast_concat]
  calc ls.map stripTrailingCR
      = ls.map id := List.map_congr_left (fun l hl => stripTrailingCR_eq_self l (hcr l hl))
    _ = ls := List.map_id ls

theorem digitVal_digitChar10 (d : Nat) (h : d < 10) : digitVal (digitChar10 d) = d := by
  interval_cases d <;> decide

theorem isAsciiDigitChar_digitChar10 (d : Nat) (h : d < 10) :
    isAsciiDigitChar (digitChar10 d) = true := by
  interval_cases d <;> decide

theorem natToCharsAux_spec (fuel : Nat) : ∀ n, n < fuel →
    (natToCharsAux fuel n).all isAsciiDigitChar = true ∧
    natToCharsAux fuel n ≠ [] ∧
    ∀ acc, (natToCharsAux fuel n).foldl (fun a c => a * 10 + digitVal c) acc
      = acc * 10 ^ (natToCharsAux fuel n).length + n := by
  induction fuel with
  | zero => intro n hn; omega
  | succ fuel ih =>
    intro n hn
    by_cases h10 : n < 10
    · refine ⟨?_, ?_, ?_⟩ <;> simp only [natToCharsAux, if_pos h10]
      · simp [isAsciiDigitChar_digitChar10 n h10]
      · simp
      · intro acc
        simp [digitVal_digitChar10 n h10]
    · have hdiv : n / 10 < n := Nat.div_lt_self (by omega) (by omega)
      have hrec := ih (n / 10) (by omega)
      obtain ⟨hall, hne, hfold⟩ := hrec
      refine ⟨?_, ?_, ?_⟩ <;> simp only [natToCharsAux, if_neg h10]
      · rw [List.all_append, hall]
        simp [isAsciiDigitChar_digitChar10 (n % 10) (by omega)]
      · simp
      · intro acc
        rw [List.foldl_append, hfold acc]
        simp only [List.foldl_cons, List.foldl_nil, List.length_append,
          List.length_singleton]
        rw [digitVal_digitChar10 (n % 10) (by omega)]
        have hmod : n / 10 * 10 + n % 10 = n := by omega
        calc (acc * 10 ^ (natToCharsAux fuel (n / 10)).length + n / 10) * 10 + n % 10
            = acc * (10 ^ (natToCharsAux fuel (n / 10)).length * 10)
                + (n / 10 * 10 + n % 10) := by ring
          _ = acc * 10 ^ ((natToCharsAux fuel (n / 10)).length + 1) + n := by
              rw [hmod, Nat.pow_succ]

theorem natToChars_spec (n : Nat) :
    (natToChars n).all isAsciiDigitChar = true ∧
    natToChars n ≠ [] ∧
    ∀ acc, (natToChars n).foldl (fun a c => a * 10 + digitVal c) acc
      = acc * 10 ^ (natToChars n).length + n :=
  natToCharsAux_spec (n + 1) n (Nat.lt_succ_self n)

theorem natToChars_head_ne_plus (n : Nat) : ¬((natToChars n).head? = some '+') := by
  obtain ⟨hall, hne, _⟩ := natToChars_spec n
  intro hh
  cases hc : natToChars n with
  | nil => exact hne hc
  | cons c t =>
    rw [hc, List.head?_cons, Option.some.injEq] at hh
    rw [hc, List.all_cons, Bool.and_eq_true] at hall
    rw [hh] at hall
    exact absurd hall.1 (by decide)

theorem newline_not_mem_natToChars (n : Nat) : '\n' ∉ natToChars n := by
  obtain ⟨hall, _, _⟩ := natToChars_spec n
  intro hm
  rw [List.all_eq_true] at hall
  exact absurd (hall _ hm) (by decide)

theorem parse_uint_natToChars (limit p : Nat) (hp : p < limit) :
    parse_uint limit (natToChars p) = some p := by
  obtain ⟨hall, hne, hfold⟩ := natToChars_spec p
  simp only [parse_uint]
  rw [if_neg (natToChars_head_ne_plus p)]
  rw [if_neg (fun h => hne (List.isEmpty_iff.mp h))]
  rw [if_pos hall, hfold 0]
  simp only [Nat.zero_mul, Nat.zero_add]
  rw [if_pos hp]


theorem getLast?_kvLine (k v : List Char) : (kvLine k v).getLast? = some '"' := by
  unfold kvLine
  have h : k ++ '=' :: '"' :: (v ++ ['"']) = (k ++ ('=' :: '"' :: v)) ++ ['"'] := by
    simp
  rw [h, List.getLast?_concat]

theorem noNL_getD (o : Option (List Char))
    (h : o.all (fun v => !v.contains '\n') = true) : '\n' ∉ o.getD [] := by
  cases o with
  | none => simp
  | some w =>
    intro hm
    rw [Option.getD_some] at hm
    have hc : w.contains '\n' = true := List.elem_iff.mpr hm
    rw [Option.all_some, hc] at h
    exact absurd h (by decide)

theorem noNL_port (o : Option Nat) : '\n' ∉ (o.map natToChars).getD [] := by
  cases o with
  | none => simp
  | some p => simpa using newline_not_mem_natToChars p

theorem noNL_kvLine (k v : List Char) (hk : '\n' ∉ k) (hv : '\n' ∉ v) :
    '\n' ∉ kvLine k v := by
  intro hm
  have hcases : ('\n' ∈ k) ∨ ('\n' ∈ v) ∨ '\n' = '=' ∨ '\n' = '"' := by
    clear hk hv
    simp only [kvLine, List.mem_append, List.mem_cons, List.mem_singleton] at hm
    tauto
  rcases hcases with h | h | h | h
  · exact hk h
  · exact hv h
  · exact absurd h (by decide)
  · exact absurd h (by decide)

theorem port_field_roundtrip (o : Option Nat)
    (h : o.all (fun p => decide (p < 65536)) = true) :
    (some ((o.map natToChars).getD [])).bind parse_u16 = o := by
  cases o with
  | none => rfl
  | some p =>
    have hp : p < 65536 := by simpa using h
    show parse_u16 (natToChars p) = some p
    exact parse_uint_natToChars 65536 p hp

theorem sim_field_roundtrip (o : Option (List Char)) :
    (some (o.getD [])).bind (fun v => if v.isEmpty then none else some v)
      = o.bind (fun v => if v.isEmpty then none else some v) := by
  cases o with
  | none => rfl
  | some w => rfl

theorem parsePairs_render (s : QaState) (hnl : s.noNewlines = true) :
    parsePairs (render_state s) = state_pairs s := by
  simp only [QaState.noNewlines, Bool.and_eq_true] at hnl
  obtain ⟨⟨⟨⟨⟨⟨⟨⟨⟨⟨⟨h1, h2⟩, h3⟩, h4⟩, h5⟩, h6⟩, h7⟩, h8⟩, h9⟩, h10⟩, h11⟩, h12⟩ := hnl
  have hlines_nl : ∀ l ∈ render_lines s, '\n' ∉ l := by
    intro l hl
    simp only [render_lines, List.mem_cons, List.not_mem_nil, or_false] at hl
    rcases hl with rfl | rfl | rfl | rfl | rfl | rfl | rfl | rfl | rfl | rfl | rfl | rfl |
      rfl | rfl | rfl | rfl | rfl | rfl | rfl
    · exact noNL_kvLine _ _ (by decide) (noNL_getD _ h1)
    · exact noNL_kvLine _ _ (by decide) (noNL_getD _ h2)
    · exact noNL_kvLine _ _ (by decide) (noNL_getD _ h3)
    · exact noNL_kvLine _ _ (by decide) (noNL_getD _ h4)
    · exact noNL_kvLine _ _ (by decide) (noNL_port _)
    · exact noNL_kvLine _ _ (by decide) (noNL_port _)
    · exact noNL_kvLine _ _ (by decide) (noNL_port _)
    · exact noNL_kvLine _ _ (by decide) (noNL_port _)
    · exact noNL_kvLine _ _ (by decide) (noNL_port _)
    · exact noNL_kvLine _ _ (by decide) (noNL_port _)
    · exact noNL_kvLine _ _ (by decide) (noNL_port _)
    · exact noNL_kvLine _ _ (by decide) (noNL_getD _ h5)
    · exact noNL_kvLine _ _ (by decide) (noNL_getD _ h6)
    · exact noNL_kvLine _ _ (by decide) (noNL_getD _ h7)
    · exact noNL_kvLine _ _ (by decide) (noNL_getD _ h8)
    · exact noNL_kvLine _ _ (by decide) (noNL_getD _ h9)
    · exact noNL_kvLine _ _ (by decide) (noNL_getD _ h10)
    · exact noNL_kvLine _ _ (by decide) (noNL_getD _ h11)
    · exact noNL_kvLine _ _ (by decide) (noNL_getD _ h12)
  have hlines_cr : ∀ l ∈ render_lines s, l.getLast? ≠ some '\r' := by
    intro l hl
    simp only [render_lines, List.mem_cons, List.not_mem_nil, or_false] at hl
    rcases hl with rfl | rfl | rfl | rfl | rfl | rfl | rfl | rfl | rfl | rfl | rfl | rfl |
        rfl | rfl | rfl | rfl | rfl | rfl | rfl <;>
      (rw [getLast?_kvLine]; decide)
  unfold parsePairs render_state
  rw [rustLines_joinLines (render_lines s) hlines_nl hlines_cr]
  unfold render_lines state_pairs
  rw [parsePairs_step _ _ _ (by decide), parsePairs_step _ _ _ (by decide),
    parsePairs_step _ _ _ (by decide), parsePairs_step _ _ _ (by decide),
    parsePairs_step _ _ _ (by decide), parsePairs_step _ _ _ (by decide),
    parsePairs_step _ _ _ (by decide), parsePairs_step _ _ _ (by decide),
    parsePairs_step _ _ _ (by decide), parsePairs_step _ _ _ (by decide),
    parsePairs_step _ _ _ (by decide), parsePairs_step _ _ _ (by decide),
    parsePairs_step _ _ _ (by decide), parsePairs_step _ _ _ (by decide),
    parsePairs_step _ _ _ (by decide), parsePairs_step _ _ _ (by decide),
    parsePairs_step _ _ _ (by decide), parsePairs_step _ _ _ (by decide),
    parsePairs_step _ _ _ (by decide)]
  rfl

/-- Counterexample to claim C5 as stated: the all-absent QaState does not
round trip; its absent session_id is written as an empty quoted value and
reloaded as the present empty string. -/
theorem qa_state_roundtrip_cex :
    ¬ QaState.from_file (render_state qaStateDefault) = qaStateDefault ∧
    (QaState.from_file (render_state qaStateDefault)).session_id = some [] ∧
    qaStateDefault.session_id = none := by decide

/-- Claim C5 as amended.  Writing a QaState with write_to_file and reloading
the file with from_file reproduces the state up to the load normalization:
every present field whose value contains no newline comes back exactly
(ports, as u16 values, always do); an absent plain string field comes back
as the present empty string (it is serialized as an empty quoted value and
parsed back verbatim); and a present-but-empty simulator field comes back
absent (from_file filters empty simulator fields).  Exact round trip holds
precisely for the states fixed by this normalization. -/
theorem qa_state_roundtrip (s : QaState) (hnl : s.noNewlines = true)
    (hpb : s.portsBounded = true) :
    QaState.from_file (render_state s) = QaState.normalize s := by
  simp only [QaState.portsBounded, Bool.and_eq_true] at hpb
  obtain ⟨⟨⟨⟨⟨⟨p1, p2⟩, p3⟩, p4⟩, p5⟩, p6⟩, p7⟩ := hpb
  simp only [QaState.from_file, parsePairs_render s hnl]
  unfold QaState.normalize
  congr 1
  · exact port_field_roundtrip s.functions_port p1
  · exact port_field_roundtrip s.hosting_port p2
  · exact port_field_roundtrip s.firestore_port p3
  · exact port_field_roundtrip s.ui_port p4
  · exact port_field_roundtrip s.otel_port p5
  · exact port_field_roundtrip s.hub_port p6
  · exact port_field_roundtrip s.logging_port p7
  · exact sim_field_roundtrip s.simulator_udid
  · exact sim_field_roundtrip s.simulator_name
  · exact sim_field_roundtrip s.simulator_lock_dir

/-- Witness for the amended claim C5 at a concrete mixed state: present and
absent strings, one port, one empty simulator field. -/
theorem qa_state_roundtrip_witness :
    (({ qaStateDefault with
          qa_state_root := some ("/tmp/qa".data),
          session_id := some ("demo".data),
          functions_port := some 15960,
          simulator_udid := some ("UDID-1".data),
          simulator_name := some [] } : QaState).noNewlines = true ∧
     ({ qaStateDefault with
          qa_state_root := some ("/tmp/qa".data),
          session_id := some ("demo".data),
          functions_port := some 15960,
          simulator_udid := some ("UDID-1".data),
          simulator_name := some [] } : QaState).portsBounded = true) ∧
    QaState.from_file (render_state { qaStateDefault with
        qa_state_root := some ("/tmp/qa".data),
        session_id := some ("demo".data),
        functions_port := some 15960,
        simulator_udid := some ("UDID-1".data),
        simulator_name := some [] })
      = QaState.normalize { qaStateDefault with
          qa_state_root := some ("/tmp/qa".data),
          session_id := some ("demo".data),
          functions_port := some 15960,
          simulator_udid := some ("UDID-1".data),
          simulator_name := some [] } :=
  ⟨⟨by decide, by decide⟩,
   qa_state_roundtrip { qaStateDefault with
        qa_state_root := some ("/tmp/qa".data),
        session_id := some ("demo".data),
        functions_port := some 15960,
        simulator_udid := some ("UDID-1".data),
        simulator_name := some [] } (by decide) (by decide)⟩
